import Mathlib

/-!
Verification of the gopsql backend-message codec (final revision of
`messaging.go`, whose behaviour is pinned by the newest test sections of the
test file).

Modelling conventions:
* a byte is a `Nat` (well-formed values are `< 256`); a payload or stream is a
  `List Nat`;
* Go `int8` / `int16` / `int32` values are `Int`, with the wrap-around of a Go
  conversion made explicit by `int8wrap` / `int16wrap` / `int32wrap`;
* every fallible routine returns `Except Err α`; the `Err.crash` constructor
  models a Go runtime panic (slice bounds out of range, or `make` with a
  negative size) as opposed to a returned error value;
* Go's `(bytesRead int, err error)` return shape of the primitive readers is
  modelled as a pair `Except Err α × Nat`, the second component being the
  number of bytes consumed (0 in the error case, as in the source).
-/

namespace GoPsql

/-- Error taxonomy of the codec (`ErrValueUnderflow`, `ErrValueOverflow`,
`ErrInvalidValue`, `io.ErrUnexpectedEOF`), plus `crash` for a Go runtime
panic. -/
inductive Err where
  | underflow
  | overflow
  | invalidValue
  | unexpectedEOF
  | crash
deriving DecidableEq, Repr

/-- Every entry of the list is a byte value. -/
def bytesOk (b : List Nat) : Prop := ∀ c ∈ b, c < 256

/-- Every entry of the list is a nonzero byte value: the list is a valid Go
string content for the null-terminated wire encoding. -/
def strOk (s : List Nat) : Prop := ∀ c ∈ s, 0 < c ∧ c < 256

/-- Value of the Go conversion `int8(b)` of a byte `b`. -/
def int8ofByte (b : Nat) : Int := if b < 128 then (b : Int) else (b : Int) - 256

/-- Value of a Go conversion to `int16` (two's complement wrap). -/
def int16wrap (i : Int) : Int :=
  if i % 65536 < 32768 then i % 65536 else i % 65536 - 65536

/-- Value of a Go conversion to `int32` (two's complement wrap). -/
def int32wrap (i : Int) : Int :=
  if i % 4294967296 < 2147483648 then i % 4294967296 else i % 4294967296 - 4294967296

/-- Signed 16-bit value of two big-endian bytes:
`int16(binary.BigEndian.Uint16 [b0, b1])`. -/
def fromBE16 (b0 b1 : Nat) : Int :=
  if b0 * 256 + b1 < 32768 then ((b0 * 256 + b1 : Nat) : Int)
  else ((b0 * 256 + b1 : Nat) : Int) - 65536

/-- Signed 32-bit value of four big-endian bytes:
`int32(binary.BigEndian.Uint32 [b0, b1, b2, b3])`. -/
def fromBE32 (b0 b1 b2 b3 : Nat) : Int :=
  if b0 * 16777216 + b1 * 65536 + b2 * 256 + b3 < 2147483648 then
    ((b0 * 16777216 + b1 * 65536 + b2 * 256 + b3 : Nat) : Int)
  else ((b0 * 16777216 + b1 * 65536 + b2 * 256 + b3 : Nat) : Int) - 4294967296

/-- Source `readByte`: one byte, or `ErrValueUnderflow` consuming 0 bytes. -/
def readByte (b : List Nat) : Except Err Nat × Nat :=
  match b with
  | [] => (.error .underflow, 0)
  | v :: _ => (.ok v, 1)

/-- Source `readInt8`: `readByte` then the Go conversion `int8(v)`. -/
def readInt8 (b : List Nat) : Except Err Int × Nat :=
  match readByte b with
  | (.error e, n) => (.error e, n)
  | (.ok v, n) => (.ok (int8ofByte v), n)

/-- Source `readInt16`: two big-endian bytes as a signed 16-bit value. -/
def readInt16 (b : List Nat) : Except Err Int × Nat :=
  match b with
  | b0 :: b1 :: _ => (.ok (fromBE16 b0 b1), 2)
  | _ => (.error .underflow, 0)

/-- Source `readInt32`: four big-endian bytes as a signed 32-bit value. -/
def readInt32 (b : List Nat) : Except Err Int × Nat :=
  match b with
  | b0 :: b1 :: b2 :: b3 :: _ => (.ok (fromBE32 b0 b1 b2 b3), 4)
  | _ => (.error .underflow, 0)

/-- Source `readString`: scan for the first 0x00 byte; return the bytes before
it, consuming them and the terminator; `ErrValueUnderflow` consuming 0 bytes
when no 0x00 byte exists. -/
def readString (b : List Nat) : Except Err (List Nat) × Nat :=
  if b.findIdx (· == 0) < b.length then
    (.ok (b.take (b.findIdx (· == 0))), b.findIdx (· == 0) + 1)
  else (.error .underflow, 0)

/-- Source `writeByte`: the bytes appended to the output buffer. -/
def writeByte (b : Nat) : List Nat := [b]

/-- Source `writeBytes`: the bytes appended to the output buffer. -/
def writeBytes (b : List Nat) : List Nat := b

/-- Source `writeInt8`: `writeByte(byte(i))`. -/
def writeInt8 (i : Int) : List Nat := [(i % 256).toNat]

/-- Source `writeInt16`: `uint16(i)` in big-endian byte order. -/
def writeInt16 (i : Int) : List Nat :=
  [(i % 65536).toNat / 256, (i % 65536).toNat % 256]

/-- Source `writeInt32`: `uint32(i)` in big-endian byte order. -/
def writeInt32 (i : Int) : List Nat :=
  [(i % 4294967296).toNat / 16777216, (i % 4294967296).toNat / 65536 % 256,
    (i % 4294967296).toNat / 256 % 256, (i % 4294967296).toNat % 256]

/-- Source `writeString`: the string bytes followed by a single 0x00. -/
def writeString (s : List Nat) : List Nat := s ++ [0]

/-- Source `writeMessage`: 1-byte kind, then `int32(len(b)) + 4` big-endian,
then the payload bytes. -/
def writeMessage (kind : Nat) (b : List Nat) : List Nat :=
  writeByte kind ++ writeInt32 (int32wrap (b.length : Int) + 4) ++ writeBytes b


def msgKindAuthentication : Nat := 82
def msgKindKeyData : Nat := 75
def msgKindBindComplete : Nat := 50
def msgKindCloseComplete : Nat := 51
def msgKindCommandComplete : Nat := 67
def msgKindCopyData : Nat := 100
def msgKindCopyDone : Nat := 99
def msgKindCopyInResponse : Nat := 71
def msgKindCopyOutResponse : Nat := 72
def msgKindCopyBothResponse : Nat := 87
def msgKindDataRow : Nat := 68
def msgKindEmptyQueryResponse : Nat := 73
def msgKindErrorResponse : Nat := 69
def msgKindFunctionCallResponse : Nat := 86
def msgKindNegotiateProtocolVersion : Nat := 118
def msgKindNoData : Nat := 110
def msgKindNoticeResponse : Nat := 78
def msgKindNotificationResponse : Nat := 65
def msgKindParameterDescription : Nat := 116
def msgKindParameterStatus : Nat := 83
def msgKindParseComplete : Nat := 49
def msgKindPortalSuspended : Nat := 115
def msgKindReadyForQuery : Nat := 90
def msgKindRowDescription : Nat := 84

/-! Authentication sub-kind constants (the source's `authKind…` int32 values). -/

def authKindOk : Int := 0
def authKindKerberosV5 : Int := 2
def authKindCleartextPassword : Int := 3
def authKindMD5Password : Int := 5
def authKindGSS : Int := 7
def authKindGSSContinue : Int := 8
def authKindSSPI : Int := 9
def authKindSASL : Int := 10
def authKindSASLContinue : Int := 11
def authKindSASLFinal : Int := 12

/-- The tagged union of decoded backend messages: one constructor per source
struct, carrying the struct's fields. `DataRow` and `FunctionCallResponse`
distinguish a nil Go slice (`none`) from a present, possibly empty one
(`some …`), as the source does. -/
inductive Msg where
  | authenticationOk
  | authenticationKerberosV5
  | authenticationCleartextPassword
  | authenticationMD5Password (Salt : List Nat)
  | authenticationGSS
  | authenticationGSSContinue (Data : List Nat)
  | authenticationSSPI
  | authenticationSASL (Mechanisms : List (List Nat))
  | authenticationSASLContinue (Data : List Nat)
  | authenticationSASLFinal (Data : List Nat)
  | backendKeyData (ProcessID : Int) (SecretKey : List Nat)
  | bindComplete
  | closeComplete
  | commandComplete (Tag : List Nat)
  | copyData (Data : List Nat)
  | copyDone
  | copyInResponse (Format : Int) (Columns : List Int)
  | copyOutResponse (Format : Int) (Columns : List Int)
  | copyBothResponse (Format : Int) (Columns : List Int)
  | dataRow (Columns : List (Option (List Nat)))
  | emptyQueryResponse
  | errorResponse (Fields : List Nat) (Values : List (List Nat))
  | functionCallResponse (Result : Option (List Nat))
  | negotiateProtocolVersion (MinorVersionSupported : Int)
      (UnrecognizedOptions : List (List Nat))
  | noData
  | noticeResponse (Fields : List Nat) (Values : List (List Nat))
  | notificationResponse (ProcessID : Int) (Channel : List Nat) (Payload : List Nat)
  | parameterDescription (Parameters : List Int)
  | parameterStatus (Name : List Nat) (Value : List Nat)
  | parseComplete
  | portalSuspended
  | readyForQuery (TxStatus : Nat)
  | rowDescription (Names : List (List Nat)) (Tables : List Int) (Columns : List Int)
      (DataTypes : List Int) (Sizes : List Int) (Modifiers : List Int)
      (Formats : List Int)
  | unknown
deriving DecidableEq, Repr

/-! Payload decoders, one per source `Decode` method. -/

/-- Source `AuthenticationOk.Decode`: ignores the payload. -/
def AuthenticationOk.Decode (_ : List Nat) : Except Err Msg := .ok .authenticationOk

/-- Source `AuthenticationKerberosV5.Decode`: ignores the payload. -/
def AuthenticationKerberosV5.Decode (_ : List Nat) : Except Err Msg :=
  .ok .authenticationKerberosV5

/-- Source `AuthenticationCleartextPassword.Decode`: ignores the payload. -/
def AuthenticationCleartextPassword.Decode (_ : List Nat) : Except Err Msg :=
  .ok .authenticationCleartextPassword

/-- Source `AuthenticationMD5Password.Decode`: `copy(x.Salt[:], b)` into a
zero-initialised 4-byte array — copies `min 4 b.length` bytes, leaving the
rest of the salt zero, and never fails. -/
def AuthenticationMD5Password.Decode (b : List Nat) : Except Err Msg :=
  .ok (.authenticationMD5Password (b.take 4 ++ List.replicate (4 - b.length) 0))

/-- Source `AuthenticationGSS.Decode`: ignores the payload. -/
def AuthenticationGSS.Decode (_ : List Nat) : Except Err Msg := .ok .authenticationGSS

/-- Source `AuthenticationGSSContinue.Decode`: copies the whole payload. -/
def AuthenticationGSSContinue.Decode (b : List Nat) : Except Err Msg :=
  .ok (.authenticationGSSContinue b)

/-- Source `AuthenticationSSPI.Decode`: ignores the payload. -/
def AuthenticationSSPI.Decode (_ : List Nat) : Except Err Msg := .ok .authenticationSSPI

/-- Loop of source `AuthenticationSASL.Decode`: `for len(b) > 1` read one
null-terminated mechanism name and append it. -/
def saslLoop (b : List Nat) : Except Err (List (List Nat)) :=
  if 1 < b.length then
    match hs : readString b with
    | (.error e, _) => .error e
    | (.ok mechanism, bread) =>
      match saslLoop (b.drop bread) with
      | .error e => .error e
      | .ok ms => .ok (mechanism :: ms)
  else .ok []
termination_by b.length
decreasing_by
  unfold readString at hs
  split at hs
  · simp only [Prod.mk.injEq] at hs
    simp only [List.length_drop]
    omega
  · simp at hs

/-- Source `AuthenticationSASL.Decode`. -/
def AuthenticationSASL.Decode (b : List Nat) : Except Err Msg :=
  match saslLoop b with
  | .error e => .error e
  | .ok ms => .ok (.authenticationSASL ms)

/-- Source `AuthenticationSASLContinue.Decode`: copies the whole payload. -/
def AuthenticationSASLContinue.Decode (b : List Nat) : Except Err Msg :=
  .ok (.authenticationSASLContinue b)

/-- Source `AuthenticationSASLFinal.Decode`: copies the whole payload. -/
def AuthenticationSASLFinal.Decode (b : List Nat) : Except Err Msg :=
  .ok (.authenticationSASLFinal b)

/-- Source `BackendKeyData.Decode`: 4-byte ProcessID, then the remainder is
the secret key, rejected with Underflow below 4 bytes and Overflow above
256 bytes. -/
def BackendKeyData.Decode (b : List Nat) : Except Err Msg :=
  match readInt32 b with
  | (.error e, _) => .error e
  | (.ok pid, bread) =>
    if (b.drop bread).length < 4 then .error .underflow
    else if 256 < (b.drop bread).length then .error .overflow
    else .ok (.backendKeyData pid (b.drop bread))

/-- Source `BindComplete.Decode`: ignores the payload. -/
def BindComplete.Decode (_ : List Nat) : Except Err Msg := .ok .bindComplete

/-- Source `CloseComplete.Decode`: ignores the payload. -/
def CloseComplete.Decode (_ : List Nat) : Except Err Msg := .ok .closeComplete

/-- Source `CommandComplete.Decode`: one null-terminated string. -/
def CommandComplete.Decode (b : List Nat) : Except Err Msg :=
  match readString b with
  | (.error e, _) => .error e
  | (.ok tag, _) => .ok (.commandComplete tag)

/-- Source `CopyData.Decode`: copies the whole payload. -/
def CopyData.Decode (b : List Nat) : Except Err Msg := .ok (.copyData b)

/-- Source `CopyDone.Decode`: ignores the payload. -/
def CopyDone.Decode (_ : List Nat) : Except Err Msg := .ok .copyDone

/-- Element loop shared by the three Copy*Response decoders: `columns` many
16-bit column format codes. -/
def copyColumnsLoop (n : Nat) (b : List Nat) : Except Err (List Int) :=
  match n with
  | 0 => .ok []
  | n + 1 =>
    match readInt16 b with
    | (.error e, _) => .error e
    | (.ok c, bread) =>
      match copyColumnsLoop n (b.drop bread) with
      | .error e => .error e
      | .ok cs => .ok (c :: cs)

/-- Source `CopyInResponse.Decode`: 8-bit format, 16-bit column count, a bulk
underflow check (`len(b) < int(columns)*2`), then `make` (a Go panic when the
count is negative) and the element loop. Bytes after the counted elements are
ignored. -/
def CopyInResponse.Decode (b : List Nat) : Except Err Msg :=
  match readInt8 b with
  | (.error e, _) => .error e
  | (.ok format, bread) =>
    match readInt16 (b.drop bread) with
    | (.error e, _) => .error e
    | (.ok columns, bread2) =>
      if ((b.drop bread |>.drop bread2).length : Int) < columns * 2 then
        .error .underflow
      else if columns < 0 then .error .crash
      else
        match copyColumnsLoop columns.toNat (b.drop bread |>.drop bread2) with
        | .error e => .error e
        | .ok cs => .ok (.copyInResponse format cs)

/-- Source `CopyOutResponse.Decode`: identical body to `CopyInResponse`. -/
def CopyOutResponse.Decode (b : List Nat) : Except Err Msg :=
  match readInt8 b with
  | (.error e, _) => .error e
  | (.ok format, bread) =>
    match readInt16 (b.drop bread) with
    | (.error e, _) => .error e
    | (.ok columns, bread2) =>
      if ((b.drop bread |>.drop bread2).length : Int) < columns * 2 then
        .error .underflow
      else if columns < 0 then .error .crash
      else
        match copyColumnsLoop columns.toNat (b.drop bread |>.drop bread2) with
        | .error e => .error e
        | .ok cs => .ok (.copyOutResponse format cs)

/-- Source `CopyBothResponse.Decode`: identical body to `CopyInResponse`. -/
def CopyBothResponse.Decode (b : List Nat) : Except Err Msg :=
  match readInt8 b with
  | (.error e, _) => .error e
  | (.ok format, bread) =>
    match readInt16 (b.drop bread) with
    | (.error e, _) => .error e
    | (.ok columns, bread2) =>
      if ((b.drop bread |>.drop bread2).length : Int) < columns * 2 then
        .error .underflow
      else if columns < 0 then .error .crash
      else
        match copyColumnsLoop columns.toNat (b.drop bread |>.drop bread2) with
        | .error e => .error e
        | .ok cs => .ok (.copyBothResponse format cs)

/-- Column loop of source `DataRow.Decode`: per column a signed 32-bit length;
`-1` is the null sentinel; any other negative length panics in `make`
(`crash`), and a length exceeding the remaining bytes panics in `b[:length]`
(`crash`). -/
def dataRowLoop (n : Nat) (b : List Nat) : Except Err (List (Option (List Nat))) :=
  match n with
  | 0 => .ok []
  | n + 1 =>
    match readInt32 b with
    | (.error e, _) => .error e
    | (.ok length, bread) =>
      if length = -1 then
        match dataRowLoop n (b.drop bread) with
        | .error e => .error e
        | .ok cs => .ok (none :: cs)
      else if length < 0 then .error .crash
      else if ((b.drop bread).length : Int) < length then .error .crash
      else
        match dataRowLoop n (b.drop bread |>.drop length.toNat) with
        | .error e => .error e
        | .ok cs => .ok (some (b.drop bread |>.take length.toNat) :: cs)

/-- Source `DataRow.Decode`: 16-bit column count (a negative count panics in
`make`), then the column loop. -/
def DataRow.Decode (b : List Nat) : Except Err Msg :=
  match readInt16 b with
  | (.error e, _) => .error e
  | (.ok columns, bread) =>
    if columns < 0 then .error .crash
    else
      match dataRowLoop columns.toNat (b.drop bread) with
      | .error e => .error e
      | .ok cs => .ok (.dataRow cs)

/-- Source `EmptyQueryResponse.Decode`: ignores the payload. -/
def EmptyQueryResponse.Decode (_ : List Nat) : Except Err Msg := .ok .emptyQueryResponse

/-- Loop of source `ErrorResponse.Decode` (and `NoticeResponse.Decode`): given
the field tag just read, stop on 0x00, otherwise read the value string and
the next tag and continue. Any nonzero tag byte is accepted. -/
def errFieldsLoop (field : Nat) (b : List Nat) :
    Except Err (List Nat × List (List Nat)) :=
  if field = 0 then .ok ([], [])
  else
    match hs : readString b with
    | (.error e, _) => .error e
    | (.ok value, bread) =>
      match hb : readByte (b.drop bread) with
      | (.error e, _) => .error e
      | (.ok f, _) =>
        match errFieldsLoop f (b.drop bread |>.drop 1) with
        | .error e => .error e
        | .ok (fs, vs) => .ok (field :: fs, value :: vs)
termination_by b.length
decreasing_by
  have h3 : 1 ≤ (b.drop bread).length := by
    cases hd : b.drop bread with
    | nil =>
      rw [hd] at hb
      simp [readByte] at hb
    | cons x xs => simp [hd]
  unfold readString at hs
  split at hs
  · simp only [Prod.mk.injEq] at hs
    simp only [List.length_drop] at h3 ⊢
    omega
  · simp at hs

/-- Source `ErrorResponse.Decode`: read the first tag byte, then the
tag/value loop. -/
def ErrorResponse.Decode (b : List Nat) : Except Err Msg :=
  match readByte b with
  | (.error e, _) => .error e
  | (.ok field, bread) =>
    match errFieldsLoop field (b.drop bread) with
    | .error e => .error e
    | .ok (fs, vs) => .ok (.errorResponse fs vs)

/-- Source `FunctionCallResponse.Decode`: signed 32-bit length; negative
leaves the result nil; otherwise `b[:length]` is copied (a Go panic when the
length exceeds the remaining bytes). -/
def FunctionCallResponse.Decode (b : List Nat) : Except Err Msg :=
  match readInt32 b with
  | (.error e, _) => .error e
  | (.ok length, bread) =>
    if 0 ≤ length then
      if ((b.drop bread).length : Int) < length then .error .crash
      else .ok (.functionCallResponse (some (b.drop bread |>.take length.toNat)))
    else .ok (.functionCallResponse none)

/-- Option loop of source `NegotiateProtocolVersion.Decode`. The source's
error branch is `return nil`: on a failed string read the decode SUCCEEDS,
leaving the remaining preallocated option slots as empty strings. -/
def npvLoop (n : Nat) (b : List Nat) : Except Err (List (List Nat)) :=
  match n with
  | 0 => .ok []
  | n + 1 =>
    match readString b with
    | (.error _, _) => .ok (List.replicate (n + 1) [])
    | (.ok s, bread) =>
      match npvLoop n (b.drop bread) with
      | .error e => .error e
      | .ok rest => .ok (s :: rest)

/-- Source `NegotiateProtocolVersion.Decode`: 32-bit minor version, 32-bit
option count (negative panics in `make`), then the option loop. -/
def NegotiateProtocolVersion.Decode (b : List Nat) : Except Err Msg :=
  match readInt32 b with
  | (.error e, _) => .error e
  | (.ok minor, bread) =>
    match readInt32 (b.drop bread) with
    | (.error e, _) => .error e
    | (.ok numUnrecognized, bread2) =>
      if numUnrecognized < 0 then .error .crash
      else
        match npvLoop numUnrecognized.toNat (b.drop bread |>.drop bread2) with
        | .error e => .error e
        | .ok opts => .ok (.negotiateProtocolVersion minor opts)

/-- Source `NoData.Decode`: ignores the payload. -/
def NoData.Decode (_ : List Nat) : Except Err Msg := .ok .noData

/-- Source `NoticeResponse.Decode`: same body as `ErrorResponse.Decode`. -/
def NoticeResponse.Decode (b : List Nat) : Except Err Msg :=
  match readByte b with
  | (.error e, _) => .error e
  | (.ok field, bread) =>
    match errFieldsLoop field (b.drop bread) with
    | .error e => .error e
    | .ok (fs, vs) => .ok (.noticeResponse fs vs)

/-- Source `NotificationResponse.Decode`: 32-bit ProcessID, then two
null-terminated strings. -/
def NotificationResponse.Decode (b : List Nat) : Except Err Msg :=
  match readInt32 b with
  | (.error e, _) => .error e
  | (.ok pid, bread) =>
    match readString (b.drop bread) with
    | (.error e, _) => .error e
    | (.ok channel, bread2) =>
      match readString (b.drop bread |>.drop bread2) with
      | (.error e, _) => .error e
      | (.ok payload, _) => .ok (.notificationResponse pid channel payload)

/-- Element loop of source `ParameterDescription.Decode`: `length` many 32-bit
parameter type OIDs. -/
def paramLoop (n : Nat) (b : List Nat) : Except Err (List Int) :=
  match n with
  | 0 => .ok []
  | n + 1 =>
    match readInt32 b with
    | (.error e, _) => .error e
    | (.ok p, bread) =>
      match paramLoop n (b.drop bread) with
      | .error e => .error e
      | .ok ps => .ok (p :: ps)

/-- Source `ParameterDescription.Decode`: 16-bit count (negative panics in
`make`), then the element loop. -/
def ParameterDescription.Decode (b : List Nat) : Except Err Msg :=
  match readInt16 b with
  | (.error e, _) => .error e
  | (.ok length, bread) =>
    if length < 0 then .error .crash
    else
      match paramLoop length.toNat (b.drop bread) with
      | .error e => .error e
      | .ok ps => .ok (.parameterDescription ps)

/-- Source `ParameterStatus.Decode`: two null-terminated strings. -/
def ParameterStatus.Decode (b : List Nat) : Except Err Msg :=
  match readString b with
  | (.error e, _) => .error e
  | (.ok name, bread) =>
    match readString (b.drop bread) with
    | (.error e, _) => .error e
    | (.ok value, _) => .ok (.parameterStatus name value)

/-- Source `ParseComplete.Decode`: ignores the payload. -/
def ParseComplete.Decode (_ : List Nat) : Except Err Msg := .ok .parseComplete

/-- Source `PortalSuspended.Decode`: ignores the payload. -/
def PortalSuspended.Decode (_ : List Nat) : Except Err Msg := .ok .portalSuspended

/-- Source `ReadyForQuery.Decode`: one raw status byte, with no closed-set
validation in this revision. -/
def ReadyForQuery.Decode (b : List Nat) : Except Err Msg :=
  match readByte b with
  | (.error e, _) => .error e
  | (.ok status, _) => .ok (.readyForQuery status)

/-- Row loop of source `RowDescription.Decode`: per row a name string and six
fixed-width numeric fields, filling seven parallel arrays. -/
def rowLoop (n : Nat) (b : List Nat) :
    Except Err (List (List Nat) × List Int × List Int × List Int × List Int
      × List Int × List Int) :=
  match n with
  | 0 => .ok ([], [], [], [], [], [], [])
  | n + 1 =>
    match readString b with
    | (.error e, _) => .error e
    | (.ok name, r1) =>
      let b1 := b.drop r1
      match readInt32 b1 with
      | (.error e, _) => .error e
      | (.ok table, r2) =>
        let b2 := b1.drop r2
        match readInt16 b2 with
        | (.error e, _) => .error e
        | (.ok column, r3) =>
          let b3 := b2.drop r3
          match readInt32 b3 with
          | (.error e, _) => .error e
          | (.ok dataType, r4) =>
            let b4 := b3.drop r4
            match readInt16 b4 with
            | (.error e, _) => .error e
            | (.ok size, r5) =>
              let b5 := b4.drop r5
              match readInt32 b5 with
              | (.error e, _) => .error e
              | (.ok modifier, r6) =>
                let b6 := b5.drop r6
                match readInt16 b6 with
                | (.error e, _) => .error e
                | (.ok format, r7) =>
                  match rowLoop n (b6.drop r7) with
                  | .error e => .error e
                  | .ok (ns, ts, cs, ds, ss, ms, fs) =>
                    .ok (name :: ns, table :: ts, column :: cs, dataType :: ds,
                      size :: ss, modifier :: ms, format :: fs)

/-- Source `RowDescription.Decode`: 16-bit row count (negative panics in
`make`), then the row loop. -/
def RowDescription.Decode (b : List Nat) : Except Err Msg :=
  match readInt16 b with
  | (.error e, _) => .error e
  | (.ok length, bread) =>
    if length < 0 then .error .crash
    else
      match rowLoop length.toNat (b.drop bread) with
      | .error e => .error e
      | .ok (ns, ts, cs, ds, ss, ms, fs) =>
        .ok (.rowDescription ns ts cs ds ss ms fs)

/-- Source `Unknown.Decode`: always `ErrInvalidValue`. -/
def Unknown.Decode (_ : List Nat) : Except Err Msg := .error .invalidValue

/-- Source `Unknown.Encode`: always `ErrInvalidValue`, writing nothing. -/
def Unknown.Encode : Except Err (List Nat) := .error .invalidValue

/-- Source `parseAuthentication`: dispatch over the 32-bit sub-kind already
read from the payload; any sub-kind outside the closed set selects the
`Unknown` decoder (which fails with `ErrInvalidValue`). -/
def parseAuthentication (kind : Int) (data : List Nat) : Except Err Msg :=
  if kind = authKindOk then AuthenticationOk.Decode data
  else if kind = authKindKerberosV5 then AuthenticationKerberosV5.Decode data
  else if kind = authKindCleartextPassword then
    AuthenticationCleartextPassword.Decode data
  else if kind = authKindMD5Password then AuthenticationMD5Password.Decode data
  else if kind = authKindGSS then AuthenticationGSS.Decode data
  else if kind = authKindGSSContinue then AuthenticationGSSContinue.Decode data
  else if kind = authKindSSPI then AuthenticationSSPI.Decode data
  else if kind = authKindSASL then AuthenticationSASL.Decode data
  else if kind = authKindSASLContinue then AuthenticationSASLContinue.Decode data
  else if kind = authKindSASLFinal then AuthenticationSASLFinal.Decode data
  else Unknown.Decode data

/-- Source `parseMessage`: dispatch over the kind byte; `R` first reads the
32-bit authentication sub-kind; any kind outside the closed set selects the
`Unknown` decoder (which fails with `ErrInvalidValue`). -/
def parseMessage (kind : Nat) (data : List Nat) : Except Err Msg :=
  if kind = msgKindAuthentication then
    match readInt32 data with
    | (.error e, _) => .error e
    | (.ok k, bread) => parseAuthentication k (data.drop bread)
  else if kind = msgKindKeyData then BackendKeyData.Decode data
  else if kind = msgKindBindComplete then BindComplete.Decode data
  else if kind = msgKindCloseComplete then CloseComplete.Decode data
  else if kind = msgKindCommandComplete then CommandComplete.Decode data
  else if kind = msgKindCopyData then CopyData.Decode data
  else if kind = msgKindCopyDone then CopyDone.Decode data
  else if kind = msgKindCopyInResponse then CopyInResponse.Decode data
  else if kind = msgKindCopyOutResponse then CopyOutResponse.Decode data
  else if kind = msgKindCopyBothResponse then CopyBothResponse.Decode data
  else if kind = msgKindDataRow then DataRow.Decode data
  else if kind = msgKindEmptyQueryResponse then EmptyQueryResponse.Decode data
  else if kind = msgKindErrorResponse then ErrorResponse.Decode data
  else if kind = msgKindFunctionCallResponse then FunctionCallResponse.Decode data
  else if kind = msgKindNegotiateProtocolVersion then
    NegotiateProtocolVersion.Decode data
  else if kind = msgKindNoData then NoData.Decode data
  else if kind = msgKindNoticeResponse then NoticeResponse.Decode data
  else if kind = msgKindNotificationResponse then NotificationResponse.Decode data
  else if kind = msgKindParameterDescription then ParameterDescription.Decode data
  else if kind = msgKindParameterStatus then ParameterStatus.Decode data
  else if kind = msgKindParseComplete then ParseComplete.Decode data
  else if kind = msgKindPortalSuspended then PortalSuspended.Decode data
  else if kind = msgKindReadyForQuery then ReadyForQuery.Decode data
  else if kind = msgKindRowDescription then RowDescription.Decode data
  else Unknown.Decode data

/-- Source `Read`: a 5-byte header (kind + big-endian 32-bit length), then
exactly `length - 4` payload bytes, then `parseMessage`. A short header or a
short payload read is `io.ErrUnexpectedEOF`; a negative `length - 4` panics
in `make` (`crash`). -/
def Read (stream : List Nat) : Except Err Msg :=
  match stream with
  | [] => .error .unexpectedEOF
  | kind :: rest =>
    if rest.length < 4 then .error .unexpectedEOF
    else
      match readInt32 rest with
      | (.error e, _) => .error e
      | (.ok length, bread) =>
        if int32wrap (length - 4) < 0 then .error .crash
        else if (rest.drop bread).length < (int32wrap (length - 4)).toNat then
          .error .unexpectedEOF
        else parseMessage kind ((rest.drop bread).take (int32wrap (length - 4)).toNat)

/-! Payload encoders. In the source each message type's `Encode` method fills
a buffer with the payload below and hands it to `writeMessage`; `msgPayload`
collects those buffer contents, `msgKind` the kind tag each method passes. -/

/-- Column encoding of source `DataRow.Encode`: a nil column is the `-1` null
sentinel with no bytes; a present column is its 32-bit length then its
bytes. -/
def dataRowColumn (c : Option (List Nat)) : List Nat :=
  match c with
  | none => writeInt32 (-1)
  | some col => writeInt32 (int32wrap (col.length : Int)) ++ writeBytes col

/-- Pair encoding of source `ErrorResponse.Encode` / `NoticeResponse.Encode`:
one tag byte then the null-terminated value per field. (The source indexes
`Values[i]` over `len(Fields)`; on the equal-length values required by
well-formedness this zip-style recursion agrees with it.) -/
def errPairs (Fields : List Nat) (Values : List (List Nat)) : List Nat :=
  match Fields, Values with
  | f :: fs, v :: vs => writeByte f ++ writeString v ++ errPairs fs vs
  | _, _ => []

/-- Row encoding of source `RowDescription.Encode`: per row the name string
and six fixed-width numeric fields. (Zip-style recursion over the seven
parallel arrays the source indexes.) -/
def rowItems : List (List Nat) → List Int → List Int → List Int → List Int
    → List Int → List Int → List Nat
  | n :: ns, t :: ts, c :: cs, d :: ds, s :: ss, m :: ms, f :: fs =>
    writeString n ++ writeInt32 t ++ writeInt16 c ++ writeInt32 d
      ++ writeInt16 s ++ writeInt32 m ++ writeInt16 f
      ++ rowItems ns ts cs ds ss ms fs
  | _, _, _, _, _, _, _ => []

/-- Kind byte each source `Encode` method passes to `writeMessage`
(`Unknown` writes nothing; its entry here is unused). -/
def msgKind : Msg → Nat
  | .authenticationOk | .authenticationKerberosV5 | .authenticationCleartextPassword
  | .authenticationMD5Password _ | .authenticationGSS | .authenticationGSSContinue _
  | .authenticationSSPI | .authenticationSASL _ | .authenticationSASLContinue _
  | .authenticationSASLFinal _ => msgKindAuthentication
  | .backendKeyData _ _ => msgKindKeyData
  | .bindComplete => msgKindBindComplete
  | .closeComplete => msgKindCloseComplete
  | .commandComplete _ => msgKindCommandComplete
  | .copyData _ => msgKindCopyData
  | .copyDone => msgKindCopyDone
  | .copyInResponse _ _ => msgKindCopyInResponse
  | .copyOutResponse _ _ => msgKindCopyOutResponse
  | .copyBothResponse _ _ => msgKindCopyBothResponse
  | .dataRow _ => msgKindDataRow
  | .emptyQueryResponse => msgKindEmptyQueryResponse
  | .errorResponse _ _ => msgKindErrorResponse
  | .functionCallResponse _ => msgKindFunctionCallResponse
  | .negotiateProtocolVersion _ _ => msgKindNegotiateProtocolVersion
  | .noData => msgKindNoData
  | .noticeResponse _ _ => msgKindNoticeResponse
  | .notificationResponse _ _ _ => msgKindNotificationResponse
  | .parameterDescription _ => msgKindParameterDescription
  | .parameterStatus _ _ => msgKindParameterStatus
  | .parseComplete => msgKindParseComplete
  | .portalSuspended => msgKindPortalSuspended
  | .readyForQuery _ => msgKindReadyForQuery
  | .rowDescription _ _ _ _ _ _ _ => msgKindRowDescription
  | .unknown => 0

/-- Payload bytes each source `Encode` method hands to `writeMessage`
(`Unknown` writes nothing; its entry here is unused). -/
def msgPayload : Msg → List Nat
  | .authenticationOk => writeInt32 authKindOk
  | .authenticationKerberosV5 => writeInt32 authKindKerberosV5
  | .authenticationCleartextPassword => writeInt32 authKindCleartextPassword
  | .authenticationMD5Password Salt => writeInt32 authKindMD5Password ++ writeBytes Salt
  | .authenticationGSS => writeInt32 authKindGSS
  | .authenticationGSSContinue Data =>
    writeInt32 authKindGSSContinue ++ writeBytes Data
  | .authenticationSSPI => writeInt32 authKindSSPI
  | .authenticationSASL ms => writeInt32 authKindSASL ++ (ms.map writeString).flatten
  | .authenticationSASLContinue Data =>
    writeInt32 authKindSASLContinue ++ writeBytes Data
  | .authenticationSASLFinal Data => writeInt32 authKindSASLFinal ++ writeBytes Data
  | .backendKeyData pid key => writeInt32 pid ++ writeBytes key
  | .bindComplete => []
  | .closeComplete => []
  | .commandComplete Tag => writeString Tag
  | .copyData Data => writeBytes Data
  | .copyDone => []
  | .copyInResponse f cs =>
    writeInt8 f ++ writeInt16 (int16wrap (cs.length : Int)) ++ (cs.map writeInt16).flatten
  | .copyOutResponse f cs =>
    writeInt8 f ++ writeInt16 (int16wrap (cs.length : Int)) ++ (cs.map writeInt16).flatten
  | .copyBothResponse f cs =>
    writeInt8 f ++ writeInt16 (int16wrap (cs.length : Int)) ++ (cs.map writeInt16).flatten
  | .dataRow cols =>
    writeInt16 (int16wrap (cols.length : Int)) ++ (cols.map dataRowColumn).flatten
  | .emptyQueryResponse => []
  | .errorResponse fs vs => errPairs fs vs ++ writeByte 0
  | .functionCallResponse r =>
    match r with
    | none => writeInt32 (-1) ++ writeBytes []
    | some rb => writeInt32 (int32wrap (rb.length : Int)) ++ writeBytes rb
  | .negotiateProtocolVersion minor opts =>
    writeInt32 minor ++ writeInt32 (int32wrap (opts.length : Int))
      ++ (opts.map writeString).flatten
  | .noData => []
  | .noticeResponse fs vs => errPairs fs vs ++ writeByte 0
  | .notificationResponse pid ch pl => writeInt32 pid ++ writeString ch ++ writeString pl
  | .parameterDescription ps =>
    writeInt16 (int16wrap (ps.length : Int)) ++ (ps.map writeInt32).flatten
  | .parameterStatus n v => writeString n ++ writeString v
  | .parseComplete => []
  | .portalSuspended => []
  | .readyForQuery s => writeByte s
  | .rowDescription ns ts cs ds ss ms fs =>
    writeInt16 (int16wrap (ns.length : Int)) ++ rowItems ns ts cs ds ss ms fs
  | .unknown => []

/-- One complete encode cycle: every message type's `Encode` method wraps its
payload with `writeMessage`; `Unknown.Encode` fails with `ErrInvalidValue`
and writes nothing. -/
def encodeMsg (v : Msg) : Except Err (List Nat) :=
  match v with
  | .unknown => Unknown.Encode
  | _ => .ok (writeMessage (msgKind v) (msgPayload v))

/-! Well-formedness: the valid values of each message variant. -/

/-- Valid Go `int8` values. -/
def int8Rng (i : Int) : Prop := -128 ≤ i ∧ i < 128

/-- Valid Go `int16` values. -/
def int16Rng (i : Int) : Prop := -32768 ≤ i ∧ i < 32768

/-- Valid Go `int32` values. -/
def int32Rng (i : Int) : Prop := -2147483648 ≤ i ∧ i < 2147483648

/-- Per-variant validity: every field holds a value its Go type and the wire
shape can carry (byte ranges, no 0x00 inside null-terminated strings, counts
fitting their declared fixed-width count fields, the decoder's documented
4–256-byte secret-key bounds, nonempty SASL mechanism names — the SASL body
is a bare run of null-terminated names, so an empty trailing name is not
representable). `Unknown` has no valid value: it has no wire form. -/
def MsgOK : Msg → Prop
  | .authenticationMD5Password Salt => Salt.length = 4 ∧ bytesOk Salt
  | .authenticationGSSContinue Data => bytesOk Data
  | .authenticationSASL ms => ∀ m ∈ ms, m ≠ [] ∧ strOk m
  | .authenticationSASLContinue Data => bytesOk Data
  | .authenticationSASLFinal Data => bytesOk Data
  | .backendKeyData pid key =>
    int32Rng pid ∧ 4 ≤ key.length ∧ key.length ≤ 256 ∧ bytesOk key
  | .commandComplete Tag => strOk Tag
  | .copyData Data => bytesOk Data
  | .copyInResponse f cs => int8Rng f ∧ cs.length < 32768 ∧ ∀ c ∈ cs, int16Rng c
  | .copyOutResponse f cs => int8Rng f ∧ cs.length < 32768 ∧ ∀ c ∈ cs, int16Rng c
  | .copyBothResponse f cs => int8Rng f ∧ cs.length < 32768 ∧ ∀ c ∈ cs, int16Rng c
  | .dataRow cols =>
    cols.length < 32768 ∧
      ∀ c ∈ cols,
        match c with
        | none => True
        | some col => (col.length : Int) < 2147483648 ∧ bytesOk col
  | .errorResponse fs vs =>
    fs.length = vs.length ∧ (∀ f ∈ fs, 0 < f ∧ f < 256) ∧ ∀ v ∈ vs, strOk v
  | .functionCallResponse r =>
    match r with
    | none => True
    | some rb => (rb.length : Int) < 2147483648 ∧ bytesOk rb
  | .negotiateProtocolVersion minor opts =>
    int32Rng minor ∧ (opts.length : Int) < 2147483648 ∧ ∀ o ∈ opts, strOk o
  | .noticeResponse fs vs =>
    fs.length = vs.length ∧ (∀ f ∈ fs, 0 < f ∧ f < 256) ∧ ∀ v ∈ vs, strOk v
  | .notificationResponse pid ch pl => int32Rng pid ∧ strOk ch ∧ strOk pl
  | .parameterDescription ps => ps.length < 32768 ∧ ∀ p ∈ ps, int32Rng p
  | .parameterStatus n v => strOk n ∧ strOk v
  | .readyForQuery s => s < 256
  | .rowDescription ns ts cs ds ss ms fs =>
    ns.length < 32768 ∧ ts.length = ns.length ∧ cs.length = ns.length
      ∧ ds.length = ns.length ∧ ss.length = ns.length ∧ ms.length = ns.length
      ∧ fs.length = ns.length ∧ (∀ n ∈ ns, strOk n) ∧ (∀ t ∈ ts, int32Rng t)
      ∧ (∀ c ∈ cs, int16Rng c) ∧ (∀ d ∈ ds, int32Rng d) ∧ (∀ s ∈ ss, int16Rng s)
      ∧ (∀ m ∈ ms, int32Rng m) ∧ (∀ f ∈ fs, int16Rng f)
  | .unknown => False
  | _ => True

/-- A valid value: per-variant validity, plus its wire payload small enough
for the envelope's 32-bit `len(payload) + 4` length field. -/
def MsgWF (v : Msg) : Prop :=
  MsgOK v ∧ ((msgPayload v).length : Int) + 4 < 2147483648

/-- Spec-side envelope, written from the spec's words for comparison with the
source `writeMessage`: "1 byte kind, then big-endian `uint32(len(payload)+4)`,
then the payload bytes, in that order" and nothing else. -/
def specEnvelope (kind : Nat) (payload : List Nat) : List Nat :=
  [kind] ++
    [(payload.length + 4) / 16777216 % 256, (payload.length + 4) / 65536 % 256,
      (payload.length + 4) / 256 % 256, (payload.length + 4) % 256] ++
    payload

/-! Basic facts about the primitive readers on encoder output. -/

theorem writeInt16_length (i : Int) : (writeInt16 i).length = 2 := rfl

theorem writeInt32_length (i : Int) : (writeInt32 i).length = 4 := rfl

theorem readInt8_writeInt8 (i : Int) (rest : List Nat)
    (h1 : -128 ≤ i) (h2 : i < 128) :
    readInt8 (writeInt8 i ++ rest) = (.ok i, 1) := by
  have hval : int8ofByte (i % 256).toNat = i := by
    unfold int8ofByte
    split <;> omega
  simp [writeInt8, readInt8, readByte, hval]

theorem readInt16_writeInt16 (i : Int) (rest : List Nat)
    (h1 : -32768 ≤ i) (h2 : i < 32768) :
    readInt16 (writeInt16 i ++ rest) = (.ok i, 2) := by
  have hval : fromBE16 ((i % 65536).toNat / 256) ((i % 65536).toNat % 256) = i := by
    unfold fromBE16
    split <;> omega
  simp [writeInt16, readInt16, hval]

theorem readInt32_writeInt32 (i : Int) (rest : List Nat)
    (h1 : -2147483648 ≤ i) (h2 : i < 2147483648) :
    readInt32 (writeInt32 i ++ rest) = (.ok i, 4) := by
  have hval : fromBE32 ((i % 4294967296).toNat / 16777216)
      ((i % 4294967296).toNat / 65536 % 256) ((i % 4294967296).toNat / 256 % 256)
      ((i % 4294967296).toNat % 256) = i := by
    unfold fromBE32
    split <;> omega
  simp [writeInt32, readInt32, hval]

theorem findIdx_zero_append (s rest : List Nat) (h : ∀ c ∈ s, c ≠ 0) :
    (s ++ 0 :: rest).findIdx (· == 0) = s.length := by
  induction s with
  | nil => simp [List.findIdx_cons]
  | cons c s ih =>
    have hc : c ≠ 0 := h c (by simp)
    simp only [List.cons_append, List.findIdx_cons, List.length_cons]
    have : (c == 0) = false := by simpa using hc
    rw [this]
    simp only [cond_false]
    rw [ih (fun x hx => h x (by simp [hx]))]

theorem findIdx_no_zero (b : List Nat) (h : ∀ c ∈ b, c ≠ 0) :
    b.findIdx (· == 0) = b.length := by
  induction b with
  | nil => rfl
  | cons c s ih =>
    have hc : c ≠ 0 := h c (by simp)
    simp only [List.findIdx_cons, List.length_cons]
    have : (c == 0) = false := by simpa using hc
    rw [this]
    simp only [cond_false]
    rw [ih (fun x hx => h x (by simp [hx]))]

theorem readString_writeString (s rest : List Nat) (h : ∀ c ∈ s, c ≠ 0) :
    readString (writeString s ++ rest) = (.ok s, s.length + 1) := by
  unfold readString writeString
  have hidx : ((s ++ [0]) ++ rest).findIdx (· == 0) = s.length := by
    rw [List.append_assoc]
    exact findIdx_zero_append s rest h
  rw [hidx]
  have hlen : s.length < ((s ++ [0]) ++ rest).length := by
    simp
  rw [if_pos hlen]
  have htake : ((s ++ [0]) ++ rest).take s.length = s := by
    rw [List.append_assoc, List.take_append_of_le_length (by simp)]
    simp
  rw [htake]

theorem readString_no_zero (b : List Nat) (h : ∀ c ∈ b, c ≠ 0) :
    readString b = (.error .underflow, 0) := by
  unfold readString
  rw [findIdx_no_zero b h]
  simp

theorem readString_ok_consumed {b s : List Nat} {n : Nat}
    (h : readString b = (.ok s, n)) : 1 ≤ n ∧ n ≤ b.length := by
  unfold readString at h
  split at h
  · rename_i hlt
    simp only [Prod.mk.injEq] at h
    omega
  · simp at h

theorem int16wrap_eq {i : Int} (h1 : -32768 ≤ i) (h2 : i < 32768) :
    int16wrap i = i := by
  unfold int16wrap
  omega

theorem int32wrap_eq {i : Int} (h1 : -2147483648 ≤ i) (h2 : i < 2147483648) :
    int32wrap i = i := by
  unfold int32wrap
  omega

theorem drop_writeByte (b : Nat) (rest : List Nat) :
    (writeByte b ++ rest).drop 1 = rest := rfl

theorem drop_writeInt8 (i : Int) (rest : List Nat) :
    (writeInt8 i ++ rest).drop 1 = rest := rfl

theorem drop_writeInt16 (i : Int) (rest : List Nat) :
    (writeInt16 i ++ rest).drop 2 = rest := rfl

theorem drop_writeInt32 (i : Int) (rest : List Nat) :
    (writeInt32 i ++ rest).drop 4 = rest := rfl

theorem drop_writeString (s rest : List Nat) :
    (writeString s ++ rest).drop (s.length + 1) = rest :=
  List.drop_left' (by simp [writeString])

/-! Round-trip facts for the per-element loops of the counted-array
decoders, each on the corresponding encoder's output. -/

theorem copyColumnsLoop_flatten (cs : List Int) (rest : List Nat)
    (h : ∀ c ∈ cs, int16Rng c) :
    copyColumnsLoop cs.length ((cs.map writeInt16).flatten ++ rest) = .ok cs := by
  induction cs with
  | nil => simp [copyColumnsLoop]
  | cons c cs ih =>
    obtain ⟨hc1, hc2⟩ := h c (by simp)
    have ihh := ih (fun x hx => h x (by simp [hx]))
    simp only [List.map_cons, List.flatten_cons, List.length_cons, List.append_assoc]
    rw [copyColumnsLoop, readInt16_writeInt16 c _ hc1 hc2]
    simp only [drop_writeInt16, ihh]

theorem paramLoop_flatten (ps : List Int) (rest : List Nat)
    (h : ∀ p ∈ ps, int32Rng p) :
    paramLoop ps.length ((ps.map writeInt32).flatten ++ rest) = .ok ps := by
  induction ps with
  | nil => simp [paramLoop]
  | cons p ps ih =>
    obtain ⟨hp1, hp2⟩ := h p (by simp)
    have ihh := ih (fun x hx => h x (by simp [hx]))
    simp only [List.map_cons, List.flatten_cons, List.length_cons, List.append_assoc]
    rw [paramLoop, readInt32_writeInt32 p _ hp1 hp2]
    simp only [drop_writeInt32, ihh]

theorem dataRowLoop_flatten (cols : List (Option (List Nat))) (rest : List Nat)
    (h : ∀ col : List Nat, some col ∈ cols → (col.length : Int) < 2147483648) :
    dataRowLoop cols.length ((cols.map dataRowColumn).flatten ++ rest) = .ok cols := by
  induction cols with
  | nil => simp [dataRowLoop]
  | cons c cols ih =>
    have ihh := ih (fun x hx => h x (by simp [hx]))
    cases c with
    | none =>
      simp only [List.map_cons, List.flatten_cons, List.length_cons,
        List.append_assoc, dataRowColumn]
      rw [dataRowLoop, readInt32_writeInt32 (-1) _ (by omega) (by omega)]
      simp [drop_writeInt32, ihh]
    | some col =>
      have hlen : (col.length : Int) < 2147483648 := h col (by simp)
      simp only [List.map_cons, List.flatten_cons, List.length_cons,
        List.append_assoc, dataRowColumn, writeBytes]
      rw [int32wrap_eq (by omega) hlen]
      rw [dataRowLoop, readInt32_writeInt32 (col.length : Int) _ (by omega) hlen]
      simp only [drop_writeInt32]
      rw [if_neg (by omega), if_neg (by omega)]
      rw [if_neg (by rw [List.length_append]; push_cast; omega)]
      have htoNat : ((col.length : Int)).toNat = col.length := by omega
      rw [htoNat, List.take_left' rfl, List.drop_left' rfl, ihh]

theorem npvLoop_flatten (opts : List (List Nat)) (rest : List Nat)
    (h : ∀ o ∈ opts, ∀ c ∈ o, c ≠ 0) :
    npvLoop opts.length ((opts.map writeString).flatten ++ rest) = .ok opts := by
  induction opts with
  | nil => simp [npvLoop]
  | cons o opts ih =>
    have hnz := h o (by simp)
    have ihh := ih (fun x hx => h x (by simp [hx]))
    simp only [List.map_cons, List.flatten_cons, List.length_cons, List.append_assoc]
    rw [npvLoop, readString_writeString o _ hnz]
    simp only [drop_writeString, ihh]

theorem saslLoop_flatten (ms : List (List Nat))
    (h : ∀ m ∈ ms, m ≠ [] ∧ ∀ c ∈ m, c ≠ 0) :
    saslLoop ((ms.map writeString).flatten) = .ok ms := by
  induction ms with
  | nil =>
    rw [saslLoop]
    simp
  | cons m ms ih =>
    obtain ⟨hne, hnz⟩ := h m (by simp)
    have ihh := ih (fun x hx => h x (by simp [hx]))
    have hm1 : 1 ≤ m.length := List.length_pos.mpr hne
    simp only [List.map_cons, List.flatten_cons]
    rw [saslLoop]
    rw [if_pos (by simp [writeString]; omega)]
    split
    · rename_i e n heq
      rw [readString_writeString m _ hnz] at heq
      simp at heq
    · rename_i val bread heq
      rw [readString_writeString m _ hnz] at heq
      simp only [Prod.mk.injEq, Except.ok.injEq] at heq
      obtain ⟨hval, hbread⟩ := heq
      subst hval
      subst hbread
      rw [drop_writeString, ihh]

theorem errFieldsLoop_round (fs : List Nat) (vs : List (List Nat))
    (f : Nat) (v : List Nat)
    (hf0 : f ≠ 0) (hv0 : ∀ c ∈ v, c ≠ 0)
    (hlen : fs.length = vs.length) (hf : ∀ x ∈ fs, x ≠ 0)
    (hv : ∀ w ∈ vs, ∀ c ∈ w, c ≠ 0) :
    errFieldsLoop f (writeString v ++ (errPairs fs vs ++ writeByte 0)) =
      .ok (f :: fs, v :: vs) := by
  induction fs generalizing f v vs with
  | nil =>
    cases vs with
    | cons w ws => simp at hlen
    | nil =>
      rw [errFieldsLoop, if_neg hf0]
      split
      · rename_i e n heq
        rw [readString_writeString v _ hv0] at heq
        simp at heq
      · rename_i val bread heq
        rw [readString_writeString v _ hv0] at heq
        simp only [Prod.mk.injEq, Except.ok.injEq] at heq
        obtain ⟨hval, hbread⟩ := heq
        subst hval
        subst hbread
        rw [drop_writeString]
        simp [errPairs, writeByte, readByte, errFieldsLoop]
  | cons f' fs ih =>
    cases vs with
    | nil => simp at hlen
    | cons v' vs =>
      have hlen' : fs.length = vs.length := by simpa using hlen
      have hf'0 : f' ≠ 0 := hf f' (by simp)
      have hv'0 : ∀ c ∈ v', c ≠ 0 := hv v' (by simp)
      have ihh := ih vs f' v' hf'0 hv'0 hlen'
        (fun x hx => hf x (by simp [hx])) (fun w hw => hv w (by simp [hw]))
      rw [errFieldsLoop, if_neg hf0]
      split
      · rename_i e n heq
        rw [readString_writeString v _ hv0] at heq
        simp at heq
      · rename_i val bread heq
        rw [readString_writeString v _ hv0] at heq
        simp only [Prod.mk.injEq, Except.ok.injEq] at heq
        obtain ⟨hval, hbread⟩ := heq
        subst hval
        subst hbread
        rw [drop_writeString]
        have hshape : errPairs (f' :: fs) (v' :: vs) ++ writeByte 0 =
            f' :: (writeString v' ++ (errPairs fs vs ++ writeByte 0)) := by
          simp [errPairs, writeByte]
        rw [hshape]
        split
        · rename_i e n heq2
          simp [readByte] at heq2
        · rename_i val2 bread2 heq2
          simp only [readByte, Prod.mk.injEq, Except.ok.injEq] at heq2
          obtain ⟨hval2, hbread2⟩ := heq2
          subst hval2
          subst hbread2
          simp only [List.drop_succ_cons, List.drop_zero]
          rw [ihh]

theorem rowLoop_flatten (ns : List (List Nat)) (ts cs ds ss ms fs : List Int)
    (rest : List Nat)
    (hts : ts.length = ns.length) (hcs : cs.length = ns.length)
    (hds : ds.length = ns.length) (hss : ss.length = ns.length)
    (hms : ms.length = ns.length) (hfs : fs.length = ns.length)
    (hn : ∀ n ∈ ns, ∀ c ∈ n, c ≠ 0)
    (ht : ∀ t ∈ ts, int32Rng t) (hc : ∀ c ∈ cs, int16Rng c)
    (hd : ∀ d ∈ ds, int32Rng d) (hs : ∀ s ∈ ss, int16Rng s)
    (hm : ∀ m ∈ ms, int32Rng m) (hf : ∀ f ∈ fs, int16Rng f) :
    rowLoop ns.length (rowItems ns ts cs ds ss ms fs ++ rest) =
      .ok (ns, ts, cs, ds, ss, ms, fs) := by
  induction ns generalizing ts cs ds ss ms fs with
  | nil =>
    rw [List.length_eq_zero.mp hts, List.length_eq_zero.mp hcs,
      List.length_eq_zero.mp hds, List.length_eq_zero.mp hss,
      List.length_eq_zero.mp hms, List.length_eq_zero.mp hfs]
    simp [rowLoop, rowItems]
  | cons n ns ih =>
    cases ts with
    | nil => simp at hts
    | cons t ts =>
    cases cs with
    | nil => simp at hcs
    | cons c cs =>
    cases ds with
    | nil => simp at hds
    | cons d ds =>
    cases ss with
    | nil => simp at hss
    | cons s ss =>
    cases ms with
    | nil => simp at hms
    | cons m ms =>
    cases fs with
    | nil => simp at hfs
    | cons f fs =>
    have ihh := ih ts cs ds ss ms fs (by simpa using hts) (by simpa using hcs)
      (by simpa using hds) (by simpa using hss) (by simpa using hms)
      (by simpa using hfs) (fun x hx => hn x (by simp [hx]))
      (fun x hx => ht x (by simp [hx])) (fun x hx => hc x (by simp [hx]))
      (fun x hx => hd x (by simp [hx])) (fun x hx => hs x (by simp [hx]))
      (fun x hx => hm x (by simp [hx])) (fun x hx => hf x (by simp [hx]))
    obtain ⟨ht1, ht2⟩ := ht t (by simp)
    obtain ⟨hc1, hc2⟩ := hc c (by simp)
    obtain ⟨hd1, hd2⟩ := hd d (by simp)
    obtain ⟨hs1, hs2⟩ := hs s (by simp)
    obtain ⟨hm1, hm2⟩ := hm m (by simp)
    obtain ⟨hf1, hf2⟩ := hf f (by simp)
    simp only [rowItems, List.length_cons, List.append_assoc]
    rw [rowLoop, readString_writeString n _ (hn n (by simp))]
    simp only [drop_writeString]
    rw [readInt32_writeInt32 t _ ht1 ht2]
    simp only [drop_writeInt32]
    rw [readInt16_writeInt16 c _ hc1 hc2]
    simp only [drop_writeInt16]
    rw [readInt32_writeInt32 d _ hd1 hd2]
    simp only [drop_writeInt32]
    rw [readInt16_writeInt16 s _ hs1 hs2]
    simp only [drop_writeInt16]
    rw [readInt32_writeInt32 m _ hm1 hm2]
    simp only [drop_writeInt32]
    rw [readInt16_writeInt16 f _ hf1 hf2]
    simp only [drop_writeInt16]
    rw [ihh]

theorem flatten_writeInt16_length (cs : List Int) :
    ((cs.map writeInt16).flatten).length = 2 * cs.length := by
  induction cs with
  | nil => rfl
  | cons c cs ih =>
    simp only [List.map_cons, List.flatten_cons, List.length_append, ih,
      List.length_cons]
    simp [writeInt16]
    omega

/-! Round-trip facts for the payload decoders on the corresponding encoder
payloads (the `msgPayload` arm of each variant, after the dispatcher has
stripped the authentication sub-kind where applicable). -/

theorem BackendKeyData_decode_encode (pid : Int) (key : List Nat)
    (hp : int32Rng pid) (h4 : 4 ≤ key.length) (h256 : key.length ≤ 256) :
    BackendKeyData.Decode (writeInt32 pid ++ writeBytes key) =
      .ok (.backendKeyData pid key) := by
  obtain ⟨hp1, hp2⟩ := hp
  unfold BackendKeyData.Decode writeBytes
  rw [readInt32_writeInt32 pid _ hp1 hp2]
  simp only [drop_writeInt32]
  rw [if_neg (by omega), if_neg (by omega)]

theorem CommandComplete_decode_encode (tag : List Nat) (h : ∀ c ∈ tag, c ≠ 0) :
    CommandComplete.Decode (writeString tag) = .ok (.commandComplete tag) := by
  unfold CommandComplete.Decode
  have hrs := readString_writeString tag [] h
  rw [List.append_nil] at hrs
  rw [hrs]

theorem CopyInResponse_decode_encode (f : Int) (cs : List Int)
    (hf : int8Rng f) (hlen : cs.length < 32768) (hcs : ∀ c ∈ cs, int16Rng c) :
    CopyInResponse.Decode
      (writeInt8 f ++ writeInt16 (int16wrap (cs.length : Int)) ++
        (cs.map writeInt16).flatten) = .ok (.copyInResponse f cs) := by
  obtain ⟨hf1, hf2⟩ := hf
  unfold CopyInResponse.Decode
  rw [List.append_assoc, readInt8_writeInt8 f _ hf1 hf2]
  simp only [drop_writeInt8]
  rw [int16wrap_eq (by omega) (by omega)]
  rw [readInt16_writeInt16 (cs.length : Int) _ (by omega) (by omega)]
  simp only [drop_writeInt16]
  rw [if_neg (by rw [flatten_writeInt16_length]; push_cast; omega)]
  rw [if_neg (by omega)]
  have htoNat : ((cs.length : Int)).toNat = cs.length := by omega
  rw [htoNat]
  have hloop := copyColumnsLoop_flatten cs [] hcs
  rw [List.append_nil] at hloop
  rw [hloop]

theorem CopyOutResponse_decode_encode (f : Int) (cs : List Int)
    (hf : int8Rng f) (hlen : cs.length < 32768) (hcs : ∀ c ∈ cs, int16Rng c) :
    CopyOutResponse.Decode
      (writeInt8 f ++ writeInt16 (int16wrap (cs.length : Int)) ++
        (cs.map writeInt16).flatten) = .ok (.copyOutResponse f cs) := by
  obtain ⟨hf1, hf2⟩ := hf
  unfold CopyOutResponse.Decode
  rw [List.append_assoc, readInt8_writeInt8 f _ hf1 hf2]
  simp only [drop_writeInt8]
  rw [int16wrap_eq (by omega) (by omega)]
  rw [readInt16_writeInt16 (cs.length : Int) _ (by omega) (by omega)]
  simp only [drop_writeInt16]
  rw [if_neg (by rw [flatten_writeInt16_length]; push_cast; omega)]
  rw [if_neg (by omega)]
  have htoNat : ((cs.length : Int)).toNat = cs.length := by omega
  rw [htoNat]
  have hloop := copyColumnsLoop_flatten cs [] hcs
  rw [List.append_nil] at hloop
  rw [hloop]

theorem CopyBothResponse_decode_encode (f : Int) (cs : List Int)
    (hf : int8Rng f) (hlen : cs.length < 32768) (hcs : ∀ c ∈ cs, int16Rng c) :
    CopyBothResponse.Decode
      (writeInt8 f ++ writeInt16 (int16wrap (cs.length : Int)) ++
        (cs.map writeInt16).flatten) = .ok (.copyBothResponse f cs) := by
  obtain ⟨hf1, hf2⟩ := hf
  unfold CopyBothResponse.Decode
  rw [List.append_assoc, readInt8_writeInt8 f _ hf1 hf2]
  simp only [drop_writeInt8]
  rw [int16wrap_eq (by omega) (by omega)]
  rw [readInt16_writeInt16 (cs.length : Int) _ (by omega) (by omega)]
  simp only [drop_writeInt16]
  rw [if_neg (by rw [flatten_writeInt16_length]; push_cast; omega)]
  rw [if_neg (by omega)]
  have htoNat : ((cs.length : Int)).toNat = cs.length := by omega
  rw [htoNat]
  have hloop := copyColumnsLoop_flatten cs [] hcs
  rw [List.append_nil] at hloop
  rw [hloop]

theorem DataRow_decode_encode (cols : List (Option (List Nat)))
    (hlen : cols.length < 32768)
    (hcols : ∀ col : List Nat, some col ∈ cols → (col.length : Int) < 2147483648) :
    DataRow.Decode
      (writeInt16 (int16wrap (cols.length : Int)) ++ (cols.map dataRowColumn).flatten)
      = .ok (.dataRow cols) := by
  unfold DataRow.Decode
  rw [int16wrap_eq (by omega) (by omega)]
  rw [readInt16_writeInt16 (cols.length : Int) _ (by omega) (by omega)]
  simp only [drop_writeInt16]
  rw [if_neg (by omega)]
  have htoNat : ((cols.length : Int)).toNat = cols.length := by omega
  rw [htoNat]
  have hloop := dataRowLoop_flatten cols [] hcols
  rw [List.append_nil] at hloop
  rw [hloop]

theorem ErrorResponse_decode_encode (fs : List Nat) (vs : List (List Nat))
    (hlen : fs.length = vs.length) (hf : ∀ x ∈ fs, x ≠ 0)
    (hv : ∀ w ∈ vs, ∀ c ∈ w, c ≠ 0) :
    ErrorResponse.Decode (errPairs fs vs ++ writeByte 0) =
      .ok (.errorResponse fs vs) := by
  unfold ErrorResponse.Decode
  cases fs with
  | nil =>
    cases vs with
    | cons w ws => simp at hlen
    | nil => simp [errPairs, writeByte, readByte, errFieldsLoop]
  | cons f fs =>
    cases vs with
    | nil => simp at hlen
    | cons v vs =>
      have hshape : errPairs (f :: fs) (v :: vs) ++ writeByte 0 =
          f :: (writeString v ++ (errPairs fs vs ++ writeByte 0)) := by
        simp [errPairs, writeByte]
      rw [hshape]
      simp only [readByte, List.drop_succ_cons, List.drop_zero]
      rw [errFieldsLoop_round fs vs f v (hf f (by simp)) (hv v (by simp))
        (by simpa using hlen) (fun x hx => hf x (by simp [hx]))
        (fun w hw => hv w (by simp [hw]))]

theorem NoticeResponse_decode_encode (fs : List Nat) (vs : List (List Nat))
    (hlen : fs.length = vs.length) (hf : ∀ x ∈ fs, x ≠ 0)
    (hv : ∀ w ∈ vs, ∀ c ∈ w, c ≠ 0) :
    NoticeResponse.Decode (errPairs fs vs ++ writeByte 0) =
      .ok (.noticeResponse fs vs) := by
  unfold NoticeResponse.Decode
  cases fs with
  | nil =>
    cases vs with
    | cons w ws => simp at hlen
    | nil => simp [errPairs, writeByte, readByte, errFieldsLoop]
  | cons f fs =>
    cases vs with
    | nil => simp at hlen
    | cons v vs =>
      have hshape : errPairs (f :: fs) (v :: vs) ++ writeByte 0 =
          f :: (writeString v ++ (errPairs fs vs ++ writeByte 0)) := by
        simp [errPairs, writeByte]
      rw [hshape]
      simp only [readByte, List.drop_succ_cons, List.drop_zero]
      rw [errFieldsLoop_round fs vs f v (hf f (by simp)) (hv v (by simp))
        (by simpa using hlen) (fun x hx => hf x (by simp [hx]))
        (fun w hw => hv w (by simp [hw]))]

theorem FunctionCallResponse_decode_none :
    FunctionCallResponse.Decode (writeInt32 (-1) ++ writeBytes []) =
      .ok (.functionCallResponse none) := by
  unfold FunctionCallResponse.Decode writeBytes
  rw [readInt32_writeInt32 (-1) _ (by omega) (by omega)]
  simp

theorem FunctionCallResponse_decode_some (rb : List Nat)
    (hrb : (rb.length : Int) < 2147483648) :
    FunctionCallResponse.Decode
      (writeInt32 (int32wrap (rb.length : Int)) ++ writeBytes rb) =
      .ok (.functionCallResponse (some rb)) := by
  unfold FunctionCallResponse.Decode writeBytes
  rw [int32wrap_eq (by omega) hrb]
  rw [readInt32_writeInt32 (rb.length : Int) _ (by omega) hrb]
  simp only [drop_writeInt32]
  rw [if_pos (by omega), if_neg (by omega)]
  have htoNat : ((rb.length : Int)).toNat = rb.length := by omega
  rw [htoNat, List.take_length]

theorem NegotiateProtocolVersion_decode_encode (minor : Int)
    (opts : List (List Nat)) (hm : int32Rng minor)
    (hn : (opts.length : Int) < 2147483648)
    (ho : ∀ o ∈ opts, ∀ c ∈ o, c ≠ 0) :
    NegotiateProtocolVersion.Decode
      (writeInt32 minor ++ writeInt32 (int32wrap (opts.length : Int)) ++
        (opts.map writeString).flatten) =
      .ok (.negotiateProtocolVersion minor opts) := by
  obtain ⟨hm1, hm2⟩ := hm
  unfold NegotiateProtocolVersion.Decode
  rw [List.append_assoc, readInt32_writeInt32 minor _ hm1 hm2]
  simp only [drop_writeInt32]
  rw [int32wrap_eq (by omega) hn]
  rw [readInt32_writeInt32 (opts.length : Int) _ (by omega) hn]
  simp only [drop_writeInt32]
  rw [if_neg (by omega)]
  have htoNat : ((opts.length : Int)).toNat = opts.length := by omega
  rw [htoNat]
  have hloop := npvLoop_flatten opts [] ho
  rw [List.append_nil] at hloop
  rw [hloop]

theorem NotificationResponse_decode_encode (pid : Int) (ch pl : List Nat)
    (hp : int32Rng pid) (hch : ∀ c ∈ ch, c ≠ 0) (hpl : ∀ c ∈ pl, c ≠ 0) :
    NotificationResponse.Decode (writeInt32 pid ++ writeString ch ++ writeString pl)
      = .ok (.notificationResponse pid ch pl) := by
  obtain ⟨hp1, hp2⟩ := hp
  unfold NotificationResponse.Decode
  rw [List.append_assoc, readInt32_writeInt32 pid _ hp1 hp2]
  simp only [drop_writeInt32]
  rw [readString_writeString ch _ hch]
  simp only [drop_writeString]
  have hrs := readString_writeString pl [] hpl
  rw [List.append_nil] at hrs
  rw [hrs]

theorem ParameterDescription_decode_encode (ps : List Int)
    (hlen : ps.length < 32768) (hps : ∀ p ∈ ps, int32Rng p) :
    ParameterDescription.Decode
      (writeInt16 (int16wrap (ps.length : Int)) ++ (ps.map writeInt32).flatten) =
      .ok (.parameterDescription ps) := by
  unfold ParameterDescription.Decode
  rw [int16wrap_eq (by omega) (by omega)]
  rw [readInt16_writeInt16 (ps.length : Int) _ (by omega) (by omega)]
  simp only [drop_writeInt16]
  rw [if_neg (by omega)]
  have htoNat : ((ps.length : Int)).toNat = ps.length := by omega
  rw [htoNat]
  have hloop := paramLoop_flatten ps [] hps
  rw [List.append_nil] at hloop
  rw [hloop]

theorem ParameterStatus_decode_encode (n v : List Nat)
    (hn : ∀ c ∈ n, c ≠ 0) (hv : ∀ c ∈ v, c ≠ 0) :
    ParameterStatus.Decode (writeString n ++ writeString v) =
      .ok (.parameterStatus n v) := by
  unfold ParameterStatus.Decode
  rw [readString_writeString n _ hn]
  simp only [drop_writeString]
  have hrs := readString_writeString v [] hv
  rw [List.append_nil] at hrs
  rw [hrs]

theorem ReadyForQuery_decode_encode (s : Nat) :
    ReadyForQuery.Decode (writeByte s) = .ok (.readyForQuery s) := rfl

theorem RowDescription_decode_encode (ns : List (List Nat))
    (ts cs ds ss ms fs : List Int)
    (hlen : ns.length < 32768)
    (hts : ts.length = ns.length) (hcs : cs.length = ns.length)
    (hds : ds.length = ns.length) (hss : ss.length = ns.length)
    (hms : ms.length = ns.length) (hfs : fs.length = ns.length)
    (hn : ∀ n ∈ ns, ∀ c ∈ n, c ≠ 0)
    (ht : ∀ t ∈ ts, int32Rng t) (hc : ∀ c ∈ cs, int16Rng c)
    (hd : ∀ d ∈ ds, int32Rng d) (hs : ∀ s ∈ ss, int16Rng s)
    (hm : ∀ m ∈ ms, int32Rng m) (hf : ∀ f ∈ fs, int16Rng f) :
    RowDescription.Decode
      (writeInt16 (int16wrap (ns.length : Int)) ++ rowItems ns ts cs ds ss ms fs) =
      .ok (.rowDescription ns ts cs ds ss ms fs) := by
  unfold RowDescription.Decode
  rw [int16wrap_eq (by omega) (by omega)]
  rw [readInt16_writeInt16 (ns.length : Int) _ (by omega) (by omega)]
  simp only [drop_writeInt16]
  rw [if_neg (by omega)]
  have htoNat : ((ns.length : Int)).toNat = ns.length := by omega
  rw [htoNat]
  have hloop := rowLoop_flatten ns ts cs ds ss ms fs [] hts hcs hds hss hms hfs
    hn ht hc hd hs hm hf
  rw [List.append_nil] at hloop
  rw [hloop]

theorem AuthenticationMD5Password_decode_encode (salt : List Nat)
    (h4 : salt.length = 4) :
    AuthenticationMD5Password.Decode (writeBytes salt) =
      .ok (.authenticationMD5Password salt) := by
  unfold AuthenticationMD5Password.Decode writeBytes
  rw [h4]
  simp only [Nat.sub_self, List.replicate_zero, List.append_nil]
  rw [← h4, List.take_length]

theorem AuthenticationSASL_decode_encode (ms : List (List Nat))
    (h : ∀ m ∈ ms, m ≠ [] ∧ ∀ c ∈ m, c ≠ 0) :
    AuthenticationSASL.Decode ((ms.map writeString).flatten) =
      .ok (.authenticationSASL ms) := by
  unfold AuthenticationSASL.Decode
  rw [saslLoop_flatten ms h]

/-- Envelope round trip: reading back `writeMessage`'s output hands the kind
and the exact payload to the dispatcher, whenever the payload length fits
the 32-bit length field. -/
theorem Read_writeMessage (kind : Nat) (payload : List Nat)
    (h : (payload.length : Int) + 4 < 2147483648) :
    Read (writeMessage kind payload) = parseMessage kind payload := by
  unfold writeMessage writeByte writeBytes
  rw [int32wrap_eq (by omega) (by omega)]
  simp only [List.cons_append, List.nil_append]
  rw [Read]
  rw [if_neg (by simp [writeInt32])]
  rw [readInt32_writeInt32 ((payload.length : Int) + 4) _ (by omega) (by omega)]
  have heq : (payload.length : Int) + 4 - 4 = (payload.length : Int) := by ring
  simp only [heq, drop_writeInt32]
  rw [int32wrap_eq (by omega) (by omega)]
  rw [if_neg (by omega)]
  have htoNat : ((payload.length : Int)).toNat = payload.length := by omega
  rw [htoNat]
  rw [if_neg (by omega), List.take_length]

theorem parseMessage_copyInResponse (data : List Nat) :
    parseMessage msgKindCopyInResponse data = CopyInResponse.Decode data := rfl

theorem parseMessage_copyOutResponse (data : List Nat) :
    parseMessage msgKindCopyOutResponse data = CopyOutResponse.Decode data := rfl

theorem parseMessage_copyBothResponse (data : List Nat) :
    parseMessage msgKindCopyBothResponse data = CopyBothResponse.Decode data := rfl

theorem parseMessage_dataRow (data : List Nat) :
    parseMessage msgKindDataRow data = DataRow.Decode data := rfl

theorem parseMessage_functionCallResponse (data : List Nat) :
    parseMessage msgKindFunctionCallResponse data = FunctionCallResponse.Decode data :=
  rfl

theorem parseMessage_negotiateProtocolVersion (data : List Nat) :
    parseMessage msgKindNegotiateProtocolVersion data =
      NegotiateProtocolVersion.Decode data := rfl

theorem parseMessage_parameterDescription (data : List Nat) :
    parseMessage msgKindParameterDescription data = ParameterDescription.Decode data :=
  rfl

theorem parseMessage_rowDescription (data : List Nat) :
    parseMessage msgKindRowDescription data = RowDescription.Decode data := rfl

/-- Every non-`Unknown` message's `Encode` method succeeds and writes exactly
the `writeMessage` envelope around its payload. -/
theorem encodeMsg_eq (v : Msg) (h : v ≠ .unknown) :
    encodeMsg v = .ok (writeMessage (msgKind v) (msgPayload v)) := by
  cases v <;> first | rfl | exact absurd rfl h

/-- Decoding the wire bytes produced by encoding any valid message value
returns that value. -/
theorem decode_encode_roundtrip (v : Msg) (h : MsgWF v) :
    Read (writeMessage (msgKind v) (msgPayload v)) = .ok v := by
  obtain ⟨hok, hfit⟩ := h
  rw [Read_writeMessage _ _ hfit]
  cases v with
  | authenticationOk => rfl
  | authenticationKerberosV5 => rfl
  | authenticationCleartextPassword => rfl
  | authenticationMD5Password Salt =>
    exact AuthenticationMD5Password_decode_encode Salt hok.1
  | authenticationGSS => rfl
  | authenticationGSSContinue Data => rfl
  | authenticationSSPI => rfl
  | authenticationSASL ms =>
    exact AuthenticationSASL_decode_encode ms
      (fun m hm => ⟨(hok m hm).1, fun c hc => by have := (hok m hm).2 c hc; omega⟩)
  | authenticationSASLContinue Data => rfl
  | authenticationSASLFinal Data => rfl
  | backendKeyData pid key =>
    exact BackendKeyData_decode_encode pid key hok.1 hok.2.1 hok.2.2.1
  | bindComplete => rfl
  | closeComplete => rfl
  | commandComplete Tag =>
    exact CommandComplete_decode_encode Tag (fun c hc => by have := hok c hc; omega)
  | copyData Data => rfl
  | copyDone => rfl
  | copyInResponse f cs =>
    rw [show msgKind (.copyInResponse f cs) = msgKindCopyInResponse from rfl,
      parseMessage_copyInResponse]
    exact CopyInResponse_decode_encode f cs hok.1 hok.2.1 hok.2.2
  | copyOutResponse f cs =>
    rw [show msgKind (.copyOutResponse f cs) = msgKindCopyOutResponse from rfl,
      parseMessage_copyOutResponse]
    exact CopyOutResponse_decode_encode f cs hok.1 hok.2.1 hok.2.2
  | copyBothResponse f cs =>
    rw [show msgKind (.copyBothResponse f cs) = msgKindCopyBothResponse from rfl,
      parseMessage_copyBothResponse]
    exact CopyBothResponse_decode_encode f cs hok.1 hok.2.1 hok.2.2
  | dataRow cols =>
    rw [show msgKind (.dataRow cols) = msgKindDataRow from rfl, parseMessage_dataRow]
    exact DataRow_decode_encode cols hok.1 (fun col hc => (hok.2 (some col) hc).1)
  | emptyQueryResponse => rfl
  | errorResponse fs vs =>
    exact ErrorResponse_decode_encode fs vs hok.1
      (fun x hx => by have := hok.2.1 x hx; omega)
      (fun w hw c hc => by have := hok.2.2 w hw c hc; omega)
  | functionCallResponse r =>
    rw [show msgKind (.functionCallResponse r) = msgKindFunctionCallResponse from rfl,
      parseMessage_functionCallResponse]
    cases r with
    | none => exact FunctionCallResponse_decode_none
    | some rb => exact FunctionCallResponse_decode_some rb hok.1
  | negotiateProtocolVersion minor opts =>
    rw [show msgKind (.negotiateProtocolVersion minor opts) =
        msgKindNegotiateProtocolVersion from rfl,
      parseMessage_negotiateProtocolVersion]
    exact NegotiateProtocolVersion_decode_encode minor opts hok.1 hok.2.1
      (fun o ho c hc => by have := hok.2.2 o ho c hc; omega)
  | noData => rfl
  | noticeResponse fs vs =>
    exact NoticeResponse_decode_encode fs vs hok.1
      (fun x hx => by have := hok.2.1 x hx; omega)
      (fun w hw c hc => by have := hok.2.2 w hw c hc; omega)
  | notificationResponse pid ch pl =>
    exact NotificationResponse_decode_encode pid ch pl hok.1
      (fun c hc => by have := hok.2.1 c hc; omega)
      (fun c hc => by have := hok.2.2 c hc; omega)
  | parameterDescription ps =>
    rw [show msgKind (.parameterDescription ps) = msgKindParameterDescription from rfl,
      parseMessage_parameterDescription]
    exact ParameterDescription_decode_encode ps hok.1 hok.2
  | parameterStatus n v =>
    exact ParameterStatus_decode_encode n v
      (fun c hc => by have := hok.1 c hc; omega)
      (fun c hc => by have := hok.2 c hc; omega)
  | parseComplete => rfl
  | portalSuspended => rfl
  | readyForQuery s => rfl
  | rowDescription ns ts cs ds ss ms fs =>
    rw [show msgKind (.rowDescription ns ts cs ds ss ms fs) =
        msgKindRowDescription from rfl,
      parseMessage_rowDescription]
    exact RowDescription_decode_encode ns ts cs ds ss ms fs hok.1 hok.2.1
      hok.2.2.1 hok.2.2.2.1 hok.2.2.2.2.1 hok.2.2.2.2.2.1 hok.2.2.2.2.2.2.1
      (fun n hn c hc => by have := hok.2.2.2.2.2.2.2.1 n hn c hc; omega)
      hok.2.2.2.2.2.2.2.2.1 hok.2.2.2.2.2.2.2.2.2.1 hok.2.2.2.2.2.2.2.2.2.2.1
      hok.2.2.2.2.2.2.2.2.2.2.2.1 hok.2.2.2.2.2.2.2.2.2.2.2.2.1
      hok.2.2.2.2.2.2.2.2.2.2.2.2.2
  | unknown => exact hok.elim

/-! The claims. -/

/-- C1: for every message variant and every valid value `v`, decoding the
bytes produced by encoding `v` yields a value equal to `v`; and every byte
sequence that is a valid encoding of some message (the output of encoding a
valid value) decodes successfully and re-encodes to exactly the same bytes —
byte-exact, including the `-1` null-column sentinel of `DataRow`, which is
covered by the `dataRow` case of the quantification. -/
theorem C1_round_trip :
    (∀ v : Msg, MsgWF v → ∃ bytes, encodeMsg v = .ok bytes ∧ Read bytes = .ok v) ∧
    (∀ bytes : List Nat, (∃ v : Msg, MsgWF v ∧ encodeMsg v = .ok bytes) →
      ∃ w : Msg, Read bytes = .ok w ∧ encodeMsg w = .ok bytes) := by
  constructor
  · intro v hwf
    have hne : v ≠ .unknown := by
      intro he
      subst he
      exact hwf.1
    exact ⟨_, encodeMsg_eq v hne, decode_encode_roundtrip v hwf⟩
  · rintro bytes ⟨v, hwf, henc⟩
    have hne : v ≠ .unknown := by
      intro he
      subst he
      exact hwf.1
    rw [encodeMsg_eq v hne] at henc
    injection henc with hb
    subst hb
    exact ⟨v, decode_encode_roundtrip v hwf, encodeMsg_eq v hne⟩

/-- Witness for C1 at a concrete `DataRow` with a present, a nil, and an
empty column. -/
theorem C1_round_trip_witness :
    MsgWF (Msg.dataRow [some [104, 105], none, some []]) ∧
    (∃ bytes, encodeMsg (Msg.dataRow [some [104, 105], none, some []]) = .ok bytes ∧
      Read bytes = .ok (Msg.dataRow [some [104, 105], none, some []])) := by
  have hwf : MsgWF (Msg.dataRow [some [104, 105], none, some []]) := by
    refine ⟨⟨by norm_num, ?_⟩, by decide⟩
    intro c hc
    simp only [List.mem_cons, List.not_mem_nil, or_false] at hc
    rcases hc with rfl | rfl | rfl
    · exact ⟨by norm_num, by intro x hx; fin_cases hx <;> norm_num⟩
    · trivial
    · exact ⟨by norm_num, by intro x hx; simp at hx⟩
  exact ⟨hwf, C1_round_trip.1 _ hwf⟩

/-- Counterexample to C2 as stated: decoding a payload whose kind tag `0x00`
is outside the recognized set does NOT succeed with an `Unknown` value — it
fails with `InvalidValue` (the dispatcher routes to `Unknown.Decode`, which
returns the error; the final revision's own tests expect exactly this). -/
theorem C2_counterexample : parseMessage 0 [] = .error Err.invalidValue := rfl

/-- C2 (amended): decoding a payload whose kind tag or Authentication
sub-kind is outside the recognized closed set fails with `InvalidValue`
rather than returning a value; and encoding an `Unknown` value always fails
with `InvalidValue`. -/
theorem C2_unknown_rejected :
    (∀ kind : Nat,
      kind ∉ ([82, 75, 50, 51, 67, 100, 99, 71, 72, 87, 68, 73, 69, 86, 118,
        110, 78, 65, 116, 83, 49, 115, 90, 84] : List Nat) →
      ∀ data : List Nat, parseMessage kind data = .error .invalidValue) ∧
    (∀ k : Int, k ∉ ([0, 2, 3, 5, 7, 8, 9, 10, 11, 12] : List Int) →
      ∀ data : List Nat, parseAuthentication k data = .error .invalidValue) ∧
    Unknown.Encode = .error .invalidValue := by
  refine ⟨?_, ?_, rfl⟩
  · intro kind hk data
    simp only [List.mem_cons, List.not_mem_nil, or_false, not_or] at hk
    obtain ⟨h1, h2, h3, h4, h5, h6, h7, h8, h9, h10, h11, h12, h13, h14, h15,
      h16, h17, h18, h19, h20, h21, h22, h23, h24⟩ := hk
    simp [parseMessage, Unknown.Decode, msgKindAuthentication, msgKindKeyData,
      msgKindBindComplete, msgKindCloseComplete, msgKindCommandComplete,
      msgKindCopyData, msgKindCopyDone, msgKindCopyInResponse,
      msgKindCopyOutResponse, msgKindCopyBothResponse, msgKindDataRow,
      msgKindEmptyQueryResponse, msgKindErrorResponse,
      msgKindFunctionCallResponse, msgKindNegotiateProtocolVersion,
      msgKindNoData, msgKindNoticeResponse, msgKindNotificationResponse,
      msgKindParameterDescription, msgKindParameterStatus, msgKindParseComplete,
      msgKindPortalSuspended, msgKindReadyForQuery, msgKindRowDescription,
      h1, h2, h3, h4, h5, h6, h7, h8, h9, h10, h11, h12, h13, h14, h15, h16,
      h17, h18, h19, h20, h21, h22, h23, h24]
  · intro k hk data
    simp only [List.mem_cons, List.not_mem_nil, or_false, not_or] at hk
    obtain ⟨h1, h2, h3, h4, h5, h6, h7, h8, h9, h10⟩ := hk
    simp [parseAuthentication, Unknown.Decode, authKindOk, authKindKerberosV5,
      authKindCleartextPassword, authKindMD5Password, authKindGSS,
      authKindGSSContinue, authKindSSPI, authKindSASL, authKindSASLContinue,
      authKindSASLFinal, h1, h2, h3, h4, h5, h6, h7, h8, h9, h10]

/-- Witness for C2 (amended) at kind byte 1 and sub-kind -1. -/
theorem C2_unknown_rejected_witness :
    parseMessage 1 [] = .error .invalidValue ∧
    parseAuthentication (-1) [] = .error .invalidValue :=
  ⟨C2_unknown_rejected.1 1 (by decide) [], C2_unknown_rejected.2.1 (-1) (by decide) []⟩

/-- C3 failing input: a NegotiateProtocolVersion payload declaring two option
strings but containing only one ("hello"). The decoder returns SUCCESS with a
partially filled options array — the missing option is left as the
zero-value empty string — because the source's option loop has `return nil`
where every sibling decoder propagates the read error. The claim (decode is
all-or-nothing) is right and this code path is the slip. -/
theorem C3_negotiate_truncated :
    NegotiateProtocolVersion.Decode
      (writeInt32 111 ++ writeInt32 2 ++ writeString [104, 101, 108, 108, 111]) =
      .ok (.negotiateProtocolVersion 111 [[104, 101, 108, 108, 111], []]) := rfl

/-- C4 failing inputs, all contradicting the claim (and the spec's stated
invariant) that insufficient or trailing bytes are Underflow errors:
a DataRow column declaring 5 bytes with 0 remaining panics in Go
(`b[:length]` out of range — modelled as `crash`, not Underflow); an
AuthenticationMD5Password body of 3 bytes decodes without error into a
zero-filled salt; a CopyInResponse with two trailing bytes after its counted
elements decodes without error, silently ignoring them. -/
theorem C4_strictness_violations :
    DataRow.Decode [0, 1, 0, 0, 0, 5] = .error .crash ∧
    AuthenticationMD5Password.Decode [1, 2, 3] =
      .ok (.authenticationMD5Password [1, 2, 3, 0]) ∧
    CopyInResponse.Decode [0, 0, 1, 0, 0, 9, 9] = .ok (.copyInResponse 0 [0]) :=
  ⟨rfl, rfl, rfl⟩

/-- Counterexample to C5 as stated: the byte 0x58 (`X`) is not in the closed
set of recognized field tags, yet ErrorResponse decode of
`['X', "v\0", 0x00]` succeeds and records the unrecognized tag instead of
failing with `InvalidValue` — the final revision dropped the `ParseField`
validation an earlier revision performed. -/
theorem C5_counterexample :
    ErrorResponse.Decode [88, 118, 0, 0] = .ok (.errorResponse [88] [[118]]) :=
  ErrorResponse_decode_encode [88] [[118]] rfl (by decide) (by decide)

/-- C5 (amended): ErrorResponse decode reads (tag byte, null-terminated
string) pairs until a 0x00 tag byte; ANY nonzero tag byte is accepted and
recorded (no closed-set validation in this revision); a tag byte followed by
no terminated string aborts the decode with Underflow. -/
theorem C5_tag_loop :
    (∀ (fs : List Nat) (vs : List (List Nat)), fs.length = vs.length →
      (∀ x ∈ fs, x ≠ 0) → (∀ w ∈ vs, ∀ c ∈ w, c ≠ 0) →
      ErrorResponse.Decode (errPairs fs vs ++ writeByte 0) =
        .ok (.errorResponse fs vs)) ∧
    (∀ f : Nat, f ≠ 0 → ErrorResponse.Decode [f] = .error .underflow) := by
  refine ⟨ErrorResponse_decode_encode, ?_⟩
  intro f hf
  have h1 : errFieldsLoop f [] = .error .underflow := by
    rw [errFieldsLoop, if_neg hf]
    rfl
  unfold ErrorResponse.Decode
  rw [show readByte [f] = (.ok f, 1) from rfl]
  simp only [List.drop_succ_cons, List.drop_zero, List.drop_nil, h1]

/-- Witness for C5 (amended): the unrecognized tag 0x58 with value "v" is
accepted; the lone tag byte 0x43 aborts with Underflow. -/
theorem C5_tag_loop_witness :
    ErrorResponse.Decode (errPairs [88] [[118]] ++ writeByte 0) =
      .ok (.errorResponse [88] [[118]]) ∧
    ErrorResponse.Decode [67] = .error .underflow :=
  ⟨C5_tag_loop.1 [88] [[118]] rfl (by decide) (by decide), C5_tag_loop.2 67 (by decide)⟩

/-- C6: for every kind byte and payload, the envelope writer emits exactly
the 1-byte kind, then the big-endian 32-bit value `len(payload) + 4`, then
the payload bytes, in that order and nothing else (`specEnvelope` is that
byte sequence written from the spec's words), whenever `len(payload) + 4`
fits the 32-bit length field. -/
theorem C6_envelope (kind : Nat) (payload : List Nat)
    (h : payload.length + 4 < 4294967296) :
    writeMessage kind payload = specEnvelope kind payload := by
  have hb : ((int32wrap (payload.length : Int) + 4) % 4294967296).toNat =
      payload.length + 4 := by
    unfold int32wrap
    omega
  simp only [writeMessage, specEnvelope, writeByte, writeBytes, writeInt32, hb,
    List.cons_append, List.nil_append]
  have h24 : (payload.length + 4) / 16777216 % 256 =
      (payload.length + 4) / 16777216 := Nat.mod_eq_of_lt (by omega)
  rw [h24]

/-- Witness for C6 at kind `D` and a 3-byte payload. -/
theorem C6_envelope_witness :
    writeMessage 68 [1, 2, 3] = specEnvelope 68 [1, 2, 3] :=
  C6_envelope 68 [1, 2, 3] (by decide)

/-- C7: the null-terminated string reader decodes `[0x00]` to the empty
string consuming 1 byte; fails with Underflow consuming 0 bytes on any
buffer containing no 0x00; and on "abc\0def\0" returns "abc" consuming 4
bytes, then "def" consuming 4 bytes on the remainder. -/
theorem C7_readString :
    readString [0] = (.ok [], 1) ∧
    (∀ b : List Nat, (∀ c ∈ b, c ≠ 0) → readString b = (.error .underflow, 0)) ∧
    readString [97, 98, 99, 0, 100, 101, 102, 0] = (.ok [97, 98, 99], 4) ∧
    readString ([97, 98, 99, 0, 100, 101, 102, 0].drop 4) =
      (.ok [100, 101, 102], 4) :=
  ⟨rfl, readString_no_zero, rfl, rfl⟩

/-- Witness for C7 at the zero-free buffer [1, 2, 3]. -/
theorem C7_readString_witness : readString [1, 2, 3] = (.error .underflow, 0) :=
  C7_readString.2.1 [1, 2, 3] (by decide)

/-- C8: in the DataRow column loop a declared length of -1 yields the nil
column (`none`) and a declared length of 0 yields a present-but-empty column
(`some []`), for every remaining payload and column count; a whole-payload
decode with one null and one empty column exhibits both, distinguishably. -/
theorem C8_null_vs_empty :
    (∀ (n : Nat) (rest : List Nat),
      dataRowLoop (n + 1) (writeInt32 (-1) ++ rest) =
        (dataRowLoop n rest).map (fun cs => none :: cs)) ∧
    (∀ (n : Nat) (rest : List Nat),
      dataRowLoop (n + 1) (writeInt32 0 ++ rest) =
        (dataRowLoop n rest).map (fun cs => some [] :: cs)) ∧
    (none : Option (List Nat)) ≠ some [] ∧
    DataRow.Decode (writeInt16 2 ++ (writeInt32 (-1) ++ writeInt32 0)) =
      .ok (.dataRow [none, some []]) := by
  refine ⟨?_, ?_, by simp, rfl⟩
  · intro n rest
    rw [dataRowLoop, readInt32_writeInt32 (-1) _ (by omega) (by omega)]
    simp only [drop_writeInt32, if_pos rfl]
    cases h : dataRowLoop n rest <;> simp [h, Except.map]
  · intro n rest
    rw [dataRowLoop, readInt32_writeInt32 0 _ (by omega) (by omega)]
    simp only [drop_writeInt32]
    rw [if_neg (by omega), if_neg (by omega), if_neg (by omega)]
    simp only [Int.toNat_zero, List.take_zero, List.drop_zero]
    cases h : dataRowLoop n rest <;> simp [h, Except.map]

/-- Witness for C8 at one null column with empty remainder. -/
theorem C8_null_vs_empty_witness :
    dataRowLoop (0 + 1) (writeInt32 (-1) ++ []) =
      (dataRowLoop 0 []).map (fun cs => none :: cs) :=
  C8_null_vs_empty.1 0 []

/-- C9: every BackendKeyData payload whose secret-key portion (the bytes
after the 4-byte ProcessID) is longer than 256 bytes fails decode with
Overflow. -/
theorem C9_secret_key_overflow (b : List Nat) (h : 260 < b.length) :
    BackendKeyData.Decode b = .error .overflow := by
  rcases b with _ | ⟨b0, _ | ⟨b1, _ | ⟨b2, _ | ⟨b3, rest⟩⟩⟩⟩
  · simp at h
  · simp at h
  · simp at h
  · simp at h
  · unfold BackendKeyData.Decode
    simp only [readInt32, List.drop_succ_cons, List.drop_zero]
    rw [if_neg (by simp only [List.length_cons] at h ⊢; omega),
      if_pos (by simp only [List.length_cons] at h ⊢; omega)]

/-- Witness for C9 at a 261-byte payload. -/
theorem C9_secret_key_overflow_witness :
    BackendKeyData.Decode (List.replicate 261 0) = .error .overflow :=
  C9_secret_key_overflow (List.replicate 261 0) (by rw [List.length_replicate]; omega)

/-- C10 (implicit): every BackendKeyData payload containing the 4-byte
ProcessID but a secret-key portion shorter than 4 bytes fails decode with
Underflow — keys of length 0 through 3 are rejected. -/
theorem C10_secret_key_underflow (b : List Nat) (h4 : 4 ≤ b.length)
    (h8 : b.length < 8) : BackendKeyData.Decode b = .error .underflow := by
  rcases b with _ | ⟨b0, _ | ⟨b1, _ | ⟨b2, _ | ⟨b3, rest⟩⟩⟩⟩
  · simp at h4
  · simp at h4
  · simp at h4
  · simp at h4
  · unfold BackendKeyData.Decode
    simp only [readInt32, List.drop_succ_cons, List.drop_zero]
    rw [if_pos (by simp only [List.length_cons] at h8 ⊢; omega)]

/-- Witness for C10 at a 6-byte payload (2-byte secret-key portion). -/
theorem C10_secret_key_underflow_witness :
    BackendKeyData.Decode [0, 0, 0, 0, 0, 0] = .error .underflow :=
  C10_secret_key_underflow [0, 0, 0, 0, 0, 0] (by decide) (by decide)

end GoPsql
